import Mathlib

/-!
Shallow embedding of the S6 prioritization engine
(`src/services/S6-MoteurPriorisation/src/services/`): effort calculator,
criticality service, optimization service (greedy fallback paths),
prioritization strategies and metrics service.

Python dictionaries of candidate classes are modelled as a structure whose
fields are `Option`-valued: `none` models an absent key, and the accessors
mirror the source's `dict.get(key, default)` calls.  Python floats are
modelled as rationals; `round(x, n)` is modelled as correctly-rounded
decimal rounding with ties to even, which is what CPython's `round` on
floats computes.
-/

/-- One candidate class, modelling the Python dicts flowing through the
engine.  Absent keys are `none`. -/
structure Cls where
  class_name : Option String := none
  risk_score : Option ℚ := none
  loc : Option ℤ := none
  cyclomatic_complexity : Option ℚ := none
  num_methods : Option ℤ := none
  num_dependencies : Option ℤ := none
  effort_hours : Option ℚ := none
  effort_aware_score : Option ℚ := none
  module_criticality : Option String := none
deriving Repr, DecidableEq

/-- `cls.get('class_name', '')` -/
def getName (c : Cls) : String := c.class_name.getD ""

/-- `cls.get('risk_score', 0.0)` -/
def getRisk (c : Cls) : ℚ := c.risk_score.getD 0

/-- `cls.get('effort_hours', 0.0)` -/
def getEffort (c : Cls) : ℚ := c.effort_hours.getD 0

/-- `cls.get('effort_aware_score', 0.0)` -/
def getScore (c : Cls) : ℚ := c.effort_aware_score.getD 0

/-- Sum of `risk_score` over a list (`sum(cls.get('risk_score', 0.0) ...)`). -/
def sumRisk (l : List Cls) : ℚ := (l.map getRisk).sum

/-- Sum of `effort_hours` over a list. -/
def sumEffort (l : List Cls) : ℚ := (l.map getEffort).sum

/-- Round a rational to the nearest integer, ties to even. -/
def roundHalfEven (x : ℚ) : ℤ :=
  let f : ℤ := Int.floor x
  let frac : ℚ := x - f
  if frac < 1/2 then f
  else if 1/2 < frac then f + 1
  else if f % 2 = 0 then f else f + 1

/-- Python's `round(x, k)` on a float: correctly rounded to `k` decimal
digits, ties to even. -/
def roundTo (k : ℕ) (x : ℚ) : ℚ := (roundHalfEven (x * 10 ^ k) : ℚ) / 10 ^ k

/-- `round(x, 2)` -/
def round2 (x : ℚ) : ℚ := roundTo 2 x

/-- `round(x, 4)` -/
def round4 (x : ℚ) : ℚ := roundTo 4 x

/-- Configuration of `EffortCalculator.__init__` with its defaults. -/
structure EffortConfig where
  loc_per_hour : ℚ := 50
  complexity_factor : ℚ := 3/2
  min_effort_hours : ℚ := 1/2
  max_effort_hours : ℚ := 40
deriving Repr, DecidableEq

/-- `EffortCalculator.estimate_effort_hours` (effort_calculator.py lines
43-92), translated step by step: `loc <= 0` returns the minimum effort;
otherwise base effort `loc / loc_per_hour` is multiplied by a complexity
multiplier (capped by `complexity_factor` when complexity exceeds 10), the
optional additional factors add `0.1` per method and `0.05` per
dependency, and the result is clamped to `[min, max]` and rounded to two
decimals. -/
def estimate_effort_hours (cfg : EffortConfig) (loc : ℤ) (complexity : ℚ)
    (num_methods num_dependencies : Option ℤ) : ℚ :=
  if loc ≤ 0 then cfg.min_effort_hours
  else
    let base_effort : ℚ := (loc : ℚ) / cfg.loc_per_hour
    let complexity_multiplier : ℚ :=
      if 10 < complexity then
        min (1 + (complexity - 10) / 20) cfg.complexity_factor
      else 1
    let effort0 : ℚ := base_effort * complexity_multiplier
    let effort1 : ℚ :=
      match num_methods with
      | some m => effort0 + (m : ℚ) * (1/10)
      | none => effort0
    let effort2 : ℚ :=
      match num_dependencies with
      | some d => effort1 + (d : ℚ) * (1/20)
      | none => effort1
    let effort3 : ℚ := max cfg.min_effort_hours (min effort2 cfg.max_effort_hours)
    round2 effort3

/-- `EffortCalculator.calculate_effort_aware_score` (lines 94-124):
`risk / effort` with the denominator floored at `0.1`, rounded to four
decimals; non-positive effort yields `0`. -/
def calculate_effort_aware_score (risk_score effort_hours : ℚ) : ℚ :=
  if effort_hours ≤ 0 then 0
  else
    let e : ℚ := if effort_hours < 1/10 then 1/10 else effort_hours
    round4 (risk_score / e)

/-- Enrichment of one prediction inside
`EffortCalculator.calculate_for_classes` (lines 126-184): dict splat
`{**pred, 'effort_hours': eh, 'effort_aware_score': s}`. -/
def enrichEffortOne (cfg : EffortConfig) (pred : Cls) : Cls :=
  let eh : ℚ := estimate_effort_hours cfg (pred.loc.getD 0)
    (pred.cyclomatic_complexity.getD 1) pred.num_methods pred.num_dependencies
  let s : ℚ := calculate_effort_aware_score (pred.risk_score.getD 0) eh
  { pred with effort_hours := some eh, effort_aware_score := some s }

/-- `EffortCalculator.calculate_for_classes`: enrich every prediction in
order. -/
def calculate_for_classes (cfg : EffortConfig) (predictions : List Cls) : List Cls :=
  predictions.map (enrichEffortOne cfg)

/-- The spec's closed-form formula for the effort estimate (spec section
4.1): `hours = base*multiplier + 0.1*num_methods + 0.05*num_dependencies`,
clamped to `[min_effort, max_effort]`, rounded to two decimals, with
`loc <= 0` returning `min_effort` and absent factors read as `0`. -/
def effortSpecFormula (cfg : EffortConfig) (loc : ℤ) (complexity : ℚ)
    (num_methods num_dependencies : ℤ) : ℚ :=
  if loc ≤ 0 then cfg.min_effort_hours
  else
    let base : ℚ := (loc : ℚ) / cfg.loc_per_hour
    let multiplier : ℚ :=
      if complexity ≤ 10 then 1
      else min (1 + (complexity - 10) / 20) cfg.complexity_factor
    round2 (max cfg.min_effort_hours
      (min (base * multiplier + (1/10) * num_methods + (1/20) * num_dependencies)
        cfg.max_effort_hours))

/-- The default `EffortCalculator()` configuration. -/
def defaultEffortConfig : EffortConfig := {}

/-- C6: `estimate_hours` agrees with the spec formula (absent additional
factors behaving as zero), and on the defaults `loc=200, complexity=15`
yields `5.0` hours. -/
theorem estimate_effort_matches_spec_formula :
    (∀ (cfg : EffortConfig) (loc : ℤ) (complexity : ℚ)
        (nm nd : Option ℤ),
        estimate_effort_hours cfg loc complexity nm nd =
          effortSpecFormula cfg loc complexity (nm.getD 0) (nd.getD 0)) ∧
    estimate_effort_hours defaultEffortConfig 200 15 none none = 5 := by
  constructor
  · intro cfg loc complexity nm nd
    unfold estimate_effort_hours effortSpecFormula
    by_cases hloc : loc ≤ 0
    · simp [hloc]
    · simp only [hloc, if_false]
      have hmul : (if 10 < complexity then
            min (1 + (complexity - 10) / 20) cfg.complexity_factor
          else 1) =
          (if complexity ≤ 10 then 1
          else min (1 + (complexity - 10) / 20) cfg.complexity_factor) := by
        rcases le_or_lt complexity 10 with h | h
        · simp [h, not_lt.mpr h]
        · simp [h, not_le.mpr h]
      rw [hmul]
      cases nm <;> cases nd <;>
        · simp only [Option.getD_some, Option.getD_none, Int.cast_zero]
          congr 2
          ring_nf
  · norm_num [estimate_effort_hours, defaultEffortConfig, round2, roundTo,
      roundHalfEven, min_def, max_def]

/-- ASCII lower-casing of one character, modelling `str.lower()` on the
ASCII identifiers the service processes. -/
def lowerChar (c : Char) : Char :=
  if 'A' ≤ c ∧ c ≤ 'Z' then Char.ofNat (c.toNat + 32) else c

/-- `class_name.lower()` over the character list of the string. -/
def lowerStr (s : List Char) : List Char := s.map lowerChar

/-- `str.split('.')`: splitting on the package separator; the empty string
splits to one empty segment, like Python. -/
def splitDot : List Char → List (List Char)
  | [] => [[]]
  | c :: rest =>
    if c = '.' then [] :: splitDot rest
    else
      match splitDot rest with
      | [] => [[c]]
      | p :: ps => (c :: p) :: ps

/-- Python's substring test `needle in hay`. -/
def subStr (needle : List Char) : List Char → Bool
  | [] => needle.isEmpty
  | c :: t => needle.isPrefixOf (c :: t) || subStr needle t

/-- First-match lookup in an insertion-ordered association list, modelling
a Python `dict` read (`d[k]` / `d.get(k)`). -/
def alistGet {α : Type} : List (String × α) → String → Option α
  | [], _ => none
  | (k, v) :: rest, key => if k = key then some v else alistGet rest key

/-- `d[key] = v` on an insertion-ordered Python dict: an existing key keeps
its position and gets the new value, a new key is appended at the end. -/
def dictSet {α : Type} : List (String × α) → String → α → List (String × α)
  | [], key, v => [(key, v)]
  | (a, b) :: tl, key, v =>
    if a = key then (key, v) :: tl else (a, b) :: dictSet tl key v

/-- State of a `CriticalityService` instance: the keyword map
`critical_modules` and the tier weight map `criticality_weights`, both
insertion-ordered as Python dicts are. -/
structure CritConfig where
  critical_modules : List (String × String)
  criticality_weights : List (String × ℚ)
deriving Repr, DecidableEq

/-- The default keyword map of `CriticalityService.__init__`, in source
order. -/
def defaultCriticalModules : List (String × String) :=
  [("auth", "high"), ("authentication", "high"), ("authorization", "high"),
   ("security", "high"), ("payment", "high"), ("billing", "high"),
   ("transaction", "high"), ("database", "medium"), ("db", "medium"),
   ("persistence", "medium"), ("api", "medium"), ("controller", "medium"),
   ("service", "medium"), ("utils", "low"), ("util", "low"),
   ("helper", "low"), ("helpers", "low"), ("common", "low"),
   ("shared", "low")]

/-- The default weight map of `CriticalityService.__init__`. -/
def defaultCriticalityWeights : List (String × ℚ) :=
  [("high", 3/2), ("medium", 6/5), ("low", 1)]

/-- A fresh `CriticalityService()`. -/
def defaultCritConfig : CritConfig :=
  { critical_modules := defaultCriticalModules,
    criticality_weights := defaultCriticalityWeights }

/-- Inner loop of `get_module_criticality`: first keyword of the map that
is a substring of the given segment wins. -/
def firstKeywordMatch (mods : List (String × String)) (part : List Char) :
    Option String :=
  match mods with
  | [] => none
  | (m, cr) :: rest =>
    if subStr m.toList part then some cr else firstKeywordMatch rest part

/-- Outer loop of `get_module_criticality` over the package segments. -/
def partsMatch (mods : List (String × String)) :
    List (List Char) → Option String
  | [] => none
  | p :: ps =>
    match firstKeywordMatch mods p with
    | some cr => some cr
    | none => partsMatch mods ps

/-- `CriticalityService.get_module_criticality` (criticality_service.py
lines 66-102): empty name is `low`; otherwise lower-case, split on `.`,
scan every segment against the keyword map, then re-scan the final simple
name, defaulting to `low`. -/
def get_module_criticality (cfg : CritConfig) (class_name : String) : String :=
  if class_name = "" then "low"
  else
    let class_lower := lowerStr class_name.toList
    let parts := splitDot class_lower
    match partsMatch cfg.critical_modules parts with
    | some cr => cr
    | none =>
      let class_simple := parts.getLast?.getD class_lower
      match firstKeywordMatch cfg.critical_modules class_simple with
      | some cr => cr
      | none => "low"

/-- `CriticalityService.apply_criticality_weight` (lines 104-123):
`round(score * weight, 4)` with weight `1.0` for an unknown tier. -/
def apply_criticality_weight (cfg : CritConfig) (effort_aware_score : ℚ)
    (criticality : String) : ℚ :=
  round4 (effort_aware_score * (alistGet cfg.criticality_weights criticality).getD 1)

/-- Enrichment of one class inside
`CriticalityService.enrich_with_criticality` (lines 125-168): dict splat
`{**cls, 'module_criticality': cr, 'effort_aware_score': adjusted}`. -/
def enrichCritOne (cfg : CritConfig) (cls : Cls) : Cls :=
  let criticality := get_module_criticality cfg (getName cls)
  let adjusted := apply_criticality_weight cfg (getScore cls) criticality
  { cls with module_criticality := some criticality,
             effort_aware_score := some adjusted }

/-- `CriticalityService.enrich_with_criticality`: enrich every class in
order. -/
def enrich_with_criticality (cfg : CritConfig) (classes : List Cls) : List Cls :=
  classes.map (enrichCritOne cfg)

/-- `CriticalityService.update_critical_modules` (lines 170-185): raise a
`ValueError` unless the tier is one of high, medium, low; otherwise set
`critical_modules[module.lower()]`. -/
def update_critical_modules (cfg : CritConfig) (module criticality : String) :
    Except String CritConfig :=
  if criticality = "high" ∨ criticality = "medium" ∨ criticality = "low" then
    let mods := dictSet cfg.critical_modules (String.mk (lowerStr module.toList)) criticality
    Except.ok { cfg with critical_modules := mods }
  else Except.error "Criticite invalide"

/-- `CriticalityService.update_criticality_weight` (lines 187-205): raise
unless the tier is valid, then raise unless the weight is positive, then
set `criticality_weights[criticality]`. -/
def update_criticality_weight (cfg : CritConfig) (criticality : String)
    (weight : ℚ) : Except String CritConfig :=
  if criticality = "high" ∨ criticality = "medium" ∨ criticality = "low" then
    if weight ≤ 0 then Except.error "Le poids doit etre positif"
    else
      let ws := dictSet cfg.criticality_weights criticality weight
      Except.ok { cfg with criticality_weights := ws }
  else Except.error "Criticite invalide"

/-- A tier returned by the keyword scan is one of the map's values. -/
theorem firstKeywordMatch_mem :
    ∀ (mods : List (String × String)) (part : List Char) (cr : String),
      firstKeywordMatch mods part = some cr → cr ∈ mods.map Prod.snd
  | [], _, _, h => by simp [firstKeywordMatch] at h
  | (m, c) :: tl, part, cr, h => by
    rw [firstKeywordMatch] at h
    split at h
    · simp only [Option.some.injEq] at h
      simp [h]
    · have := firstKeywordMatch_mem tl part cr h
      simp [this]

/-- A tier returned by the segment scan is one of the map's values. -/
theorem partsMatch_mem :
    ∀ (mods : List (String × String)) (parts : List (List Char)) (cr : String),
      partsMatch mods parts = some cr → cr ∈ mods.map Prod.snd
  | _, [], _, h => by simp [partsMatch] at h
  | mods, p :: ps, cr, h => by
    rw [partsMatch] at h
    split at h
    · next heq =>
      cases h
      exact firstKeywordMatch_mem mods p cr heq
    · exact partsMatch_mem mods ps cr h

/-- `get_module_criticality` returns `low` or a value of the keyword map. -/
theorem get_module_criticality_mem (cfg : CritConfig) (name : String) :
    get_module_criticality cfg name ∈ "low" :: cfg.critical_modules.map Prod.snd := by
  unfold get_module_criticality
  split
  · simp
  · dsimp only
    split
    · next cr h => simp [partsMatch_mem _ _ _ h]
    · split
      · next cr h => simp [firstKeywordMatch_mem _ _ _ h]
      · simp

/-- Updating a key makes lookup of that key return the new value. -/
theorem alistGet_dictSet_self {α : Type} :
    ∀ (l : List (String × α)) (key : String) (v : α),
      alistGet (dictSet l key v) key = some v
  | [], key, v => by simp [dictSet, alistGet]
  | (a, b) :: tl, key, v => by
    rw [dictSet]
    by_cases hak : a = key
    · simp [hak, alistGet]
    · simp [hak, alistGet, alistGet_dictSet_self tl key v]

/-- Updating a key leaves lookup of every other key unchanged. -/
theorem alistGet_dictSet_ne {α : Type} :
    ∀ (l : List (String × α)) (key k : String) (v : α), k ≠ key →
      alistGet (dictSet l key v) k = alistGet l k
  | [], key, k, v, hk => by
    have hka : ¬ key = k := fun h => hk h.symm
    simp [dictSet, alistGet, hka]
  | (a, b) :: tl, key, k, v, hk => by
    rw [dictSet]
    by_cases hak : a = key
    · rw [if_pos hak, alistGet, alistGet]
      have h1 : ¬ key = k := fun h => hk h.symm
      have h2 : ¬ a = k := fun h => h1 (hak ▸ h)
      simp [h1, h2]
    · rw [if_neg hak, alistGet, alistGet]
      by_cases hk2 : a = k
      · simp [hk2]
      · simp [hk2, alistGet_dictSet_ne tl key k v hk]

/-- C8: the reconfiguration operations accept exactly the valid inputs
(tier among high, medium, low; positive weight), and on success update
exactly the named entry of the named map, leaving the other map and all
other entries unchanged.  A rejected call returns an error and produces no
new state, so the functional embedding has no partial mutation. -/
theorem reconfiguration_validates_and_updates_exactly :
    ∀ (cfg : CritConfig) (module criticality : String) (weight : ℚ),
      ((∃ st, update_critical_modules cfg module criticality = Except.ok st) ↔
        (criticality = "high" ∨ criticality = "medium" ∨ criticality = "low")) ∧
      (∀ st, update_critical_modules cfg module criticality = Except.ok st →
        st.criticality_weights = cfg.criticality_weights ∧
        alistGet st.critical_modules (String.mk (lowerStr module.toList)) =
          some criticality ∧
        ∀ k, k ≠ String.mk (lowerStr module.toList) →
          alistGet st.critical_modules k = alistGet cfg.critical_modules k) ∧
      ((∃ st, update_criticality_weight cfg criticality weight = Except.ok st) ↔
        ((criticality = "high" ∨ criticality = "medium" ∨ criticality = "low") ∧
          0 < weight)) ∧
      (∀ st, update_criticality_weight cfg criticality weight = Except.ok st →
        st.critical_modules = cfg.critical_modules ∧
        alistGet st.criticality_weights criticality = some weight ∧
        ∀ k, k ≠ criticality →
          alistGet st.criticality_weights k = alistGet cfg.criticality_weights k) := by
  intro cfg module criticality weight
  refine ⟨?_, ?_, ?_, ?_⟩
  · constructor
    · rintro ⟨st, hst⟩
      unfold update_critical_modules at hst
      by_cases hv : criticality = "high" ∨ criticality = "medium" ∨ criticality = "low"
      · exact hv
      · simp [hv] at hst
    · intro hv
      exact ⟨_, by unfold update_critical_modules; rw [if_pos hv]⟩
  · intro st hst
    unfold update_critical_modules at hst
    split at hst
    · cases hst
      refine ⟨rfl, alistGet_dictSet_self _ _ _, fun k hk => alistGet_dictSet_ne _ _ _ _ hk⟩
    · cases hst
  · constructor
    · rintro ⟨st, hst⟩
      unfold update_criticality_weight at hst
      split at hst
      · next hv =>
        split at hst
        · cases hst
        · next hw => exact ⟨hv, lt_of_not_le hw⟩
      · cases hst
    · rintro ⟨hv, hw⟩
      exact ⟨_, by
        unfold update_criticality_weight
        rw [if_pos hv, if_neg (not_le.mpr hw)]⟩
  · intro st hst
    unfold update_criticality_weight at hst
    split at hst
    · split at hst
      · cases hst
      · cases hst
        refine ⟨rfl, alistGet_dictSet_self _ _ _, fun k hk => alistGet_dictSet_ne _ _ _ _ hk⟩
    · cases hst

/-- Witness for C8: updating the `medium` weight of a fresh service to `2`
succeeds and the new weight is readable back. -/
theorem reconfiguration_validates_and_updates_exactly_witness :
    ∃ st, update_criticality_weight defaultCritConfig "medium" 2 = Except.ok st ∧
      alistGet st.criticality_weights "medium" = some 2 := by
  have h := reconfiguration_validates_and_updates_exactly defaultCritConfig "m" "medium" 2
  obtain ⟨st, hst⟩ := h.2.2.1.mpr ⟨Or.inr (Or.inl rfl), by norm_num⟩
  exact ⟨st, hst, (h.2.2.2 st hst).2.1⟩

/-- C7: the classifier lower-cases and splits the qualified name and
matches keywords by substring with the first match winning (so
`com.example.auth.UserService` is `high`, a name without any keyword and
the empty name are `low`, and every answer is one of the three tiers of
the default map), and `apply_criticality_weight` rounds `score * weight`
to four decimals with weight `1.0` for an unknown tier; the scenario
score `0.1875` on tier `high` adjusts to `0.2812`. -/
theorem classify_and_weight_spec :
    get_module_criticality defaultCritConfig "com.example.auth.UserService" = "high" ∧
    apply_criticality_weight defaultCritConfig (3/16) "high" = 2812/10000 ∧
    get_module_criticality defaultCritConfig "" = "low" ∧
    get_module_criticality defaultCritConfig "com.example.foo.Bar" = "low" ∧
    (∀ (s : ℚ) (t : String),
      alistGet defaultCritConfig.criticality_weights t = none →
      apply_criticality_weight defaultCritConfig s t = round4 s) ∧
    (∀ name : String,
      get_module_criticality defaultCritConfig name ∈
        (["high", "medium", "low"] : List String)) := by
  refine ⟨by decide, ?_, by decide, by decide, ?_, ?_⟩
  · norm_num [apply_criticality_weight, defaultCritConfig,
      defaultCriticalityWeights, alistGet, round4, roundTo, roundHalfEven]
  · intro s t ht
    rw [apply_criticality_weight, ht]
    simp
  · intro name
    have h := get_module_criticality_mem defaultCritConfig name
    have hsub : ∀ x ∈ ("low" :: defaultCritConfig.critical_modules.map Prod.snd),
        x ∈ (["high", "medium", "low"] : List String) := by decide
    exact hsub _ h

/-- Witness for C7: the tier `urgent` is absent from the default weight
map, so a score passes through with weight `1.0` (up to rounding). -/
theorem classify_and_weight_spec_witness :
    alistGet defaultCritConfig.criticality_weights "urgent" = none ∧
    apply_criticality_weight defaultCritConfig (1/2) "urgent" = round4 (1/2) :=
  ⟨by decide, classify_and_weight_spec.2.2.2.2.1 (1/2) "urgent" (by decide)⟩

/-- C9: both enrichment passes return a list of the same length in the
same order; each output item keeps every non-derived field of the
corresponding input item unchanged; effort enrichment sets `effort_hours`
and `effort_aware_score` to the computed values, and criticality
enrichment sets `module_criticality` and overwrites only
`effort_aware_score`.  The embedding is a pure function of its input, as
the source builds fresh dicts and never mutates the input list. -/
theorem enrichment_preserves_frames :
    ∀ (ecfg : EffortConfig) (ccfg : CritConfig) (preds : List Cls),
      (calculate_for_classes ecfg preds).length = preds.length ∧
      (enrich_with_criticality ccfg preds).length = preds.length ∧
      (∀ i : ℕ,
        ((calculate_for_classes ecfg preds)[i]?).map Cls.class_name =
          (preds[i]?).map Cls.class_name ∧
        ((calculate_for_classes ecfg preds)[i]?).map Cls.risk_score =
          (preds[i]?).map Cls.risk_score ∧
        ((calculate_for_classes ecfg preds)[i]?).map Cls.loc =
          (preds[i]?).map Cls.loc ∧
        ((calculate_for_classes ecfg preds)[i]?).map Cls.cyclomatic_complexity =
          (preds[i]?).map Cls.cyclomatic_complexity ∧
        ((calculate_for_classes ecfg preds)[i]?).map Cls.num_methods =
          (preds[i]?).map Cls.num_methods ∧
        ((calculate_for_classes ecfg preds)[i]?).map Cls.num_dependencies =
          (preds[i]?).map Cls.num_dependencies ∧
        ((calculate_for_classes ecfg preds)[i]?).map Cls.module_criticality =
          (preds[i]?).map Cls.module_criticality ∧
        ((calculate_for_classes ecfg preds)[i]?).map Cls.effort_hours =
          (preds[i]?).map (fun p => some (estimate_effort_hours ecfg (p.loc.getD 0)
            (p.cyclomatic_complexity.getD 1) p.num_methods p.num_dependencies)) ∧
        ((calculate_for_classes ecfg preds)[i]?).map Cls.effort_aware_score =
          (preds[i]?).map (fun p => some (calculate_effort_aware_score
            (p.risk_score.getD 0)
            (estimate_effort_hours ecfg (p.loc.getD 0)
              (p.cyclomatic_complexity.getD 1) p.num_methods p.num_dependencies)))) ∧
      (∀ i : ℕ,
        ((enrich_with_criticality ccfg preds)[i]?).map Cls.class_name =
          (preds[i]?).map Cls.class_name ∧
        ((enrich_with_criticality ccfg preds)[i]?).map Cls.risk_score =
          (preds[i]?).map Cls.risk_score ∧
        ((enrich_with_criticality ccfg preds)[i]?).map Cls.loc =
          (preds[i]?).map Cls.loc ∧
        ((enrich_with_criticality ccfg preds)[i]?).map Cls.cyclomatic_complexity =
          (preds[i]?).map Cls.cyclomatic_complexity ∧
        ((enrich_with_criticality ccfg preds)[i]?).map Cls.num_methods =
          (preds[i]?).map Cls.num_methods ∧
        ((enrich_with_criticality ccfg preds)[i]?).map Cls.num_dependencies =
          (preds[i]?).map Cls.num_dependencies ∧
        ((enrich_with_criticality ccfg preds)[i]?).map Cls.effort_hours =
          (preds[i]?).map Cls.effort_hours ∧
        ((enrich_with_criticality ccfg preds)[i]?).map Cls.module_criticality =
          (preds[i]?).map (fun p => some (get_module_criticality ccfg (getName p))) ∧
        ((enrich_with_criticality ccfg preds)[i]?).map Cls.effort_aware_score =
          (preds[i]?).map (fun p => some (apply_criticality_weight ccfg (getScore p)
            (get_module_criticality ccfg (getName p))))) := by
  intro ecfg ccfg preds
  refine ⟨by simp [calculate_for_classes], by simp [enrich_with_criticality], ?_, ?_⟩
  · intro i
    simp only [calculate_for_classes, List.getElem?_map]
    cases preds[i]? <;> simp [enrichEffortOne]
  · intro i
    simp only [enrich_with_criticality, List.getElem?_map]
    cases preds[i]? <;> simp [enrichCritOne]

/-- Stable descending insertion, the building block for modelling Python's
`sorted(classes, key=key, reverse=True)` (a stable sort). -/
def insDescBy (key : Cls → ℚ) (x : Cls) : List Cls → List Cls
  | [] => [x]
  | y :: ys => if key x < key y then y :: insDescBy key x ys else x :: y :: ys

/-- `sorted(classes, key=key, reverse=True)`: elements in weakly decreasing
key order, ties kept in input order. -/
def sortDescBy (key : Cls → ℚ) (l : List Cls) : List Cls :=
  l.foldr (insDescBy key) []

/-- Inserting permutes to consing. -/
theorem insDescBy_perm (key : Cls → ℚ) (x : Cls) :
    ∀ l : List Cls, (insDescBy key x l).Perm (x :: l)
  | [] => List.Perm.refl _
  | y :: ys => by
    rw [insDescBy]
    split
    · exact ((insDescBy_perm key x ys).cons y).trans (List.Perm.swap x y ys)
    · exact List.Perm.refl _

/-- The sort is a permutation of its input. -/
theorem sortDescBy_perm (key : Cls → ℚ) :
    ∀ l : List Cls, (sortDescBy key l).Perm l
  | [] => List.Perm.refl _
  | x :: xs => (insDescBy_perm key x _).trans ((sortDescBy_perm key xs).cons x)

/-- Permutations preserve the risk mass. -/
theorem sumRisk_perm {l₁ l₂ : List Cls} (h : l₁.Perm l₂) : sumRisk l₁ = sumRisk l₂ :=
  (h.map getRisk).sum_eq

/-- Permutations preserve the effort mass. -/
theorem sumEffort_perm {l₁ l₂ : List Cls} (h : l₁.Perm l₂) :
    sumEffort l₁ = sumEffort l₂ :=
  (h.map getEffort).sum_eq

/-- Non-negative risk scores give a non-negative risk mass. -/
theorem sumRisk_nonneg : ∀ l : List Cls, (∀ c ∈ l, 0 ≤ getRisk c) → 0 ≤ sumRisk l
  | [], _ => le_refl 0
  | c :: rest, h => by
    have h1 : 0 ≤ getRisk c := h c (List.mem_cons_self c rest)
    have h2 : 0 ≤ sumRisk rest := sumRisk_nonneg rest fun x hx => h x (List.mem_cons_of_mem c hx)
    simpa [sumRisk] using add_nonneg h1 h2

/-- The sort key of `_greedy_budget_selection` (optimization_service.py line
263): score over effort, the effort read with default `1.0` and floored at
`0.1`.  Every call site passes `maximize_score='effort_aware_score'`, so the
objective field is fixed to it. -/
def ratioKey (c : Cls) : ℚ := getScore c / max (c.effort_hours.getD 1) (1/10)

/-- Selection loop of `_greedy_budget_selection` (lines 267-274): walk the
sorted list, keep any item that still fits the budget. -/
def greedyBudgetLoop (budget : ℚ) : List Cls → ℚ → List Cls
  | [], _ => []
  | c :: rest, total =>
    if total + getEffort c ≤ budget then
      c :: greedyBudgetLoop budget rest (total + getEffort c)
    else greedyBudgetLoop budget rest total

/-- `OptimizationService._greedy_budget_selection` (lines 253-276). -/
def greedy_budget_selection (classes : List Cls) (budget_hours : ℚ) : List Cls :=
  greedyBudgetLoop budget_hours (sortDescBy ratioKey classes) 0

/-- Selection loop of `_greedy_risk_selection` (lines 294-300): append while
the accumulated risk is below the target, then break. -/
def greedyRiskLoop (target : ℚ) : List Cls → ℚ → List Cls
  | [], _ => []
  | c :: rest, total =>
    if total < target then c :: greedyRiskLoop target rest (total + getRisk c)
    else []

/-- `OptimizationService._greedy_risk_selection` (lines 278-302). -/
def greedy_risk_selection (classes : List Cls) (target_risk : ℚ) : List Cls :=
  greedyRiskLoop target_risk (sortDescBy getScore classes) 0

/-- `OptimizationService.optimize_with_budget_constraint` on its
deterministic greedy-fallback path (lines 47-54, 83-85); the exact SCIP
path is an external library call whose budget constraint is imposed by
construction (lines 67-71). -/
def optimize_with_budget_constraint (classes : List Cls) (budget_hours : ℚ) :
    List Cls :=
  if classes = [] then [] else greedy_budget_selection classes budget_hours

/-- `OptimizationService.optimize_with_risk_constraint` on the greedy
fallback path (lines 138-144, 172-173). -/
def optimize_with_risk_constraint (classes : List Cls) (target_risk : ℚ) :
    List Cls :=
  if classes = [] then [] else greedy_risk_selection classes target_risk

/-- `OptimizationService.optimize_with_coverage_constraint` (lines 87-119):
target risk is `total_risk * target_coverage`. -/
def optimize_with_coverage_constraint (classes : List Cls)
    (target_coverage : ℚ) : List Cls :=
  if classes = [] then []
  else optimize_with_risk_constraint classes (sumRisk classes * target_coverage)

/-- Python truthiness of an optional float: `None` and `0.0` are falsy. -/
def optQTruthy : Option ℚ → Bool
  | none => false
  | some x => decide (x ≠ 0)

/-- Python truthiness of an optional int: `None` and `0` are falsy. -/
def optZTruthy : Option ℤ → Bool
  | none => false
  | some n => decide (n ≠ 0)

/-- Line 323: `target_risk = total_risk_all * target_coverage if
target_coverage else None`. -/
def targetRiskOf (classes : List Cls) (target_coverage : Option ℚ) : Option ℚ :=
  if optQTruthy target_coverage then
    some (sumRisk classes * target_coverage.getD 0)
  else none

/-- Selection loop of `_greedy_multi_constraint` (lines 325-340): break when
the (truthy) count constraint is reached, skip an item that would overflow a
(truthy) budget, break once the (truthy) risk target has been reached,
otherwise select. -/
def greedyMultiLoop (budget : Option ℚ) (maxClasses : Option ℤ)
    (targetRisk : Option ℚ) :
    List Cls → ℕ → ℚ → ℚ → List Cls
  | [], _, _, _ => []
  | c :: rest, nsel, totalEffort, totalRisk =>
    if optZTruthy maxClasses = true ∧ maxClasses.getD 0 ≤ (nsel : ℤ) then []
    else if optQTruthy budget = true ∧ budget.getD 0 < totalEffort + getEffort c then
      greedyMultiLoop budget maxClasses targetRisk rest nsel totalEffort totalRisk
    else if optQTruthy targetRisk = true ∧ targetRisk.getD 0 ≤ totalRisk then []
    else
      c :: greedyMultiLoop budget maxClasses targetRisk rest (nsel + 1)
        (totalEffort + getEffort c) (totalRisk + getRisk c)

/-- `OptimizationService._greedy_multi_constraint` (lines 304-342). -/
def greedy_multi_constraint (classes : List Cls) (budget_hours : Option ℚ)
    (target_coverage : Option ℚ) (max_classes : Option ℤ) : List Cls :=
  greedyMultiLoop budget_hours max_classes (targetRiskOf classes target_coverage)
    (sortDescBy getScore classes) 0 0 0

/-- `OptimizationService.optimize_multi_constraint` on the greedy fallback
path (lines 196-204, 248-251). -/
def optimize_multi_constraint (classes : List Cls)
    (budget_hours target_coverage : Option ℚ) (max_classes : Option ℤ) :
    List Cls :=
  if classes = [] then []
  else greedy_multi_constraint classes budget_hours target_coverage max_classes

/-- `PrioritizationStrategies.budget_optimization`
(prioritization_strategies.py lines 85-123): validate, optimize, re-sort by
score. -/
def budget_optimization (classes : List Cls) (budget_hours : ℚ) : List Cls :=
  if classes = [] then []
  else if budget_hours ≤ 0 then []
  else sortDescBy getScore (optimize_with_budget_constraint classes budget_hours)

/-- `PrioritizationStrategies.coverage_optimization` (lines 125-163):
reject a target outside `(0, 1]`, optimize, re-sort by score. -/
def coverage_optimization (classes : List Cls) (target_coverage : ℚ) : List Cls :=
  if classes = [] then []
  else if target_coverage ≤ 0 ∨ 1 < target_coverage then []
  else sortDescBy getScore (optimize_with_coverage_constraint classes target_coverage)

/-- `PrioritizationStrategies.multi_objective_optimization` (lines
165-206): optimize under all supplied constraints, re-sort by score. -/
def multi_objective_optimization (classes : List Cls)
    (budget_hours target_coverage : Option ℚ) (max_classes : Option ℤ) :
    List Cls :=
  if classes = [] then []
  else sortDescBy getScore
    (optimize_multi_constraint classes budget_hours target_coverage max_classes)

/-- Budget-loop invariant: starting below the budget, the selected effort
never exceeds it. -/
theorem greedyBudgetLoop_sumEffort (budget : ℚ) :
    ∀ (l : List Cls) (total : ℚ), total ≤ budget →
      total + sumEffort (greedyBudgetLoop budget l total) ≤ budget
  | [], total, h => by simpa [greedyBudgetLoop, sumEffort]
  | c :: rest, total, h => by
    rw [greedyBudgetLoop]
    split
    · next hfit =>
      have ih := greedyBudgetLoop_sumEffort budget rest (total + getEffort c) hfit
      simp only [sumEffort, List.map_cons, List.sum_cons] at ih ⊢
      linarith
    · exact greedyBudgetLoop_sumEffort budget rest total h

/-- The budget loop selects only input items. -/
theorem greedyBudgetLoop_subset (budget : ℚ) :
    ∀ (l : List Cls) (total : ℚ) (x : Cls),
      x ∈ greedyBudgetLoop budget l total → x ∈ l
  | [], _, _, hx => by simp [greedyBudgetLoop] at hx
  | c :: rest, total, x, hx => by
    rw [greedyBudgetLoop] at hx
    split at hx
    · rcases List.mem_cons.mp hx with h | h
      · exact h ▸ List.mem_cons_self c rest
      · exact List.mem_cons_of_mem c (greedyBudgetLoop_subset budget rest _ x h)
    · exact List.mem_cons_of_mem c (greedyBudgetLoop_subset budget rest total x hx)

/-- C5: the budget-constrained strategy never exceeds a non-negative
budget on the greedy path, selects only input items, and returns the empty
plan for every non-positive budget (the exact-solver path imposes the same
budget constraint inside the solver formulation by construction). -/
theorem budget_strategy_respects_budget :
    ∀ (classes : List Cls) (b : ℚ),
      (0 ≤ b → sumEffort (budget_optimization classes b) ≤ b) ∧
      (b ≤ 0 → budget_optimization classes b = []) ∧
      (∀ x ∈ budget_optimization classes b, x ∈ classes) := by
  intro classes b
  refine ⟨?_, ?_, ?_⟩
  · intro hb
    unfold budget_optimization
    split
    · simpa [sumEffort]
    · split
      · simpa [sumEffort]
      · next hb0 =>
        rw [sumEffort_perm (sortDescBy_perm getScore _)]
        unfold optimize_with_budget_constraint
        split
        · simpa [sumEffort]
        · unfold greedy_budget_selection
          have h := greedyBudgetLoop_sumEffort b (sortDescBy ratioKey classes) 0 hb
          linarith
  · intro hb
    simp [budget_optimization, hb]
  · intro x hx
    unfold budget_optimization at hx
    split at hx
    · simp at hx
    · split at hx
      · simp at hx
      · have hx2 := (sortDescBy_perm getScore _).mem_iff.mp hx
        unfold optimize_with_budget_constraint at hx2
        split at hx2
        · simp at hx2
        · unfold greedy_budget_selection at hx2
          have hx3 := greedyBudgetLoop_subset b _ 0 x hx2
          exact (sortDescBy_perm ratioKey classes).mem_iff.mp hx3

/-- Witness for C5: a concrete one-item instance with budget `5` (selected,
effort `2 ≤ 5`) and with budget `-1` (rejected). -/
theorem budget_strategy_respects_budget_witness :
    sumEffort (budget_optimization [{ effort_hours := some 2, effort_aware_score := some 1 }] 5) ≤ 5 ∧
    budget_optimization [{ effort_hours := some 2, effort_aware_score := some 1 }] (-1) = [] :=
  ⟨(budget_strategy_respects_budget _ 5).1 (by norm_num),
   (budget_strategy_respects_budget _ (-1)).2.1 (by norm_num)⟩

/-- Unfolding lemma for the risk mass of a cons. -/
theorem sumRisk_cons (c : Cls) (l : List Cls) :
    sumRisk (c :: l) = getRisk c + sumRisk l := by simp [sumRisk]

/-- Unfolding lemma for the effort mass of a cons. -/
theorem sumEffort_cons (c : Cls) (l : List Cls) :
    sumEffort (c :: l) = getEffort c + sumEffort l := by simp [sumEffort]

/-- A non-empty list of positive risks has positive risk mass. -/
theorem sumRisk_pos :
    ∀ l : List Cls, l ≠ [] → (∀ c ∈ l, 0 < getRisk c) → 0 < sumRisk l
  | [], h, _ => absurd rfl h
  | c :: rest, _, hpos => by
    rw [sumRisk_cons]
    have h1 : 0 < getRisk c := hpos c (List.mem_cons_self c rest)
    have h2 : 0 ≤ sumRisk rest :=
      sumRisk_nonneg rest fun x hx => le_of_lt (hpos x (List.mem_cons_of_mem c hx))
    linarith

/-- When every risk is positive and the whole remaining risk mass still
fits under the target, the risk loop takes the whole list: before each
item, the accumulated risk is short of the target by the (positive)
remaining suffix. -/
theorem greedyRiskLoop_all (target : ℚ) :
    ∀ (l : List Cls) (total : ℚ),
      (∀ c ∈ l, 0 < getRisk c) → total + sumRisk l ≤ target →
      greedyRiskLoop target l total = l
  | [], _, _, _ => rfl
  | c :: rest, total, hpos, htot => by
    rw [sumRisk_cons] at htot
    have hrc : 0 < getRisk c := hpos c (List.mem_cons_self c rest)
    have hpos' : ∀ x ∈ rest, 0 < getRisk x :=
      fun x hx => hpos x (List.mem_cons_of_mem c hx)
    have hrest : 0 ≤ sumRisk rest :=
      sumRisk_nonneg rest fun x hx => le_of_lt (hpos' x hx)
    have hlt : total < target := by linarith
    rw [greedyRiskLoop, if_pos hlt]
    rw [greedyRiskLoop_all target rest (total + getRisk c) hpos' (by linarith)]

/-- A candidate with risk zero, used to refute the full-coverage claim. -/
def c2zero : Cls :=
  { class_name := some "a", risk_score := some 0, effort_aware_score := some 1 }

/-- A candidate with positive risk, used in the C2 witness. -/
def c2pos : Cls :=
  { class_name := some "b", risk_score := some (1/2), effort_aware_score := some 1 }

/-- Counterexample to C2: with `target_coverage = 1.0`, the greedy path
drops a zero-risk candidate — the accumulated risk, `0`, is not below the
target, `0`, so the loop stops before taking anything — hence not all
items are returned. -/
theorem coverage_full_drops_zero_risk_item :
    coverage_optimization [c2zero] 1 = [] ∧ ([c2zero] : List Cls) ≠ [] := by
  constructor
  · norm_num [coverage_optimization, optimize_with_coverage_constraint,
      optimize_with_risk_constraint, greedy_risk_selection, greedyRiskLoop,
      sortDescBy, insDescBy, sumRisk, getRisk, getScore, c2zero]
  · simp

/-- C2 (amended): the coverage strategy returns `[]` for any target
outside `(0, 1]`, and with `target_coverage = 1.0` on the greedy path it
returns a permutation of the whole candidate list provided every
candidate's risk score is positive (a zero-risk candidate can be
dropped). -/
theorem coverage_strategy_amended :
    (∀ (classes : List Cls) (tc : ℚ), tc ≤ 0 ∨ 1 < tc →
      coverage_optimization classes tc = []) ∧
    (∀ classes : List Cls, (∀ c ∈ classes, 0 < getRisk c) →
      (coverage_optimization classes 1).Perm classes) := by
  constructor
  · intro classes tc h
    simp [coverage_optimization, h]
  · intro classes hpos
    by_cases hcl : classes = []
    · subst hcl
      simp [coverage_optimization]
    · unfold coverage_optimization
      rw [if_neg hcl, if_neg (by norm_num)]
      unfold optimize_with_coverage_constraint
      rw [if_neg hcl, mul_one]
      unfold optimize_with_risk_constraint
      rw [if_neg hcl]
      unfold greedy_risk_selection
      have hperm := sortDescBy_perm getScore classes
      have hpos' : ∀ c ∈ sortDescBy getScore classes, 0 < getRisk c :=
        fun c hc => hpos c (hperm.mem_iff.mp hc)
      have htot : 0 + sumRisk (sortDescBy getScore classes) ≤ sumRisk classes := by
        rw [sumRisk_perm hperm]
        linarith
      rw [greedyRiskLoop_all (sumRisk classes) _ 0 hpos' htot]
      exact (sortDescBy_perm getScore _).trans hperm

/-- Witness for C2: an out-of-range target yields `[]`, and full coverage
of a single positive-risk candidate returns it. -/
theorem coverage_strategy_amended_witness :
    coverage_optimization ([] : List Cls) 2 = [] ∧
    (coverage_optimization [c2pos] 1).Perm [c2pos] :=
  ⟨coverage_strategy_amended.1 [] 2 (Or.inr (by norm_num)),
   coverage_strategy_amended.2 [c2pos] (by
     intro c hc
     rw [List.mem_singleton] at hc
     subst hc
     norm_num [getRisk, c2pos])⟩

/-- Multi-constraint loop, budget invariant: with a truthy budget `b` and a
running effort below it, the selected effort never exceeds `b`. -/
theorem greedyMultiLoop_budget (b : ℚ) (hb : b ≠ 0) (mc : Option ℤ)
    (tr : Option ℚ) :
    ∀ (l : List Cls) (nsel : ℕ) (totE totR : ℚ), totE ≤ b →
      totE + sumEffort (greedyMultiLoop (some b) mc tr l nsel totE totR) ≤ b
  | [], _, _, _, h => by simpa [greedyMultiLoop, sumEffort]
  | c :: rest, nsel, totE, totR, h => by
    rw [greedyMultiLoop]
    split
    · simpa [sumEffort]
    · split
      · exact greedyMultiLoop_budget b hb mc tr rest nsel totE totR h
      · next hskip =>
        have htruthy : optQTruthy (some b) = true := by simp [optQTruthy, hb]
        have hfit : totE + getEffort c ≤ b := by
          by_contra hgt
          exact hskip ⟨htruthy, by simpa using lt_of_not_le hgt⟩
        split
        · simpa [sumEffort]
        · have ih := greedyMultiLoop_budget b hb mc tr rest (nsel + 1)
            (totE + getEffort c) (totR + getRisk c) hfit
          rw [sumEffort_cons]
          linarith

/-- Multi-constraint loop, count invariant: with a truthy positive count
bound `m`, at most `m - nsel` further items are selected. -/
theorem greedyMultiLoop_count (m : ℤ) (hm : 0 < m) (bu : Option ℚ)
    (tr : Option ℚ) :
    ∀ (l : List Cls) (nsel : ℕ) (totE totR : ℚ), (nsel : ℤ) ≤ m →
      (nsel : ℤ) + (greedyMultiLoop bu (some m) tr l nsel totE totR).length ≤ m
  | [], nsel, _, _, h => by simpa [greedyMultiLoop]
  | c :: rest, nsel, totE, totR, h => by
    rw [greedyMultiLoop]
    split
    · simpa
    · next hcount =>
      have htruthy : optZTruthy (some m) = true := by
        simp only [optZTruthy, decide_eq_true_eq]
        omega
      have hlt : (nsel : ℤ) < m := by
        by_contra hge
        exact hcount ⟨htruthy, by simpa using le_of_not_lt hge⟩
      split
      · exact greedyMultiLoop_count m hm bu tr rest nsel totE totR h
      · split
        · simpa
        · have ih := greedyMultiLoop_count m hm bu tr rest (nsel + 1)
            (totE + getEffort c) (totR + getRisk c) (by push_cast; omega)
          simp only [List.length_cons]
          push_cast at ih ⊢
          omega

/-- Multi-constraint loop, coverage progress: with no budget and no count
bound, the selected risk mass reaches the target or exhausts the list. -/
theorem greedyMultiLoop_coverage (g : ℚ) :
    ∀ (l : List Cls) (nsel : ℕ) (totE totR : ℚ),
      min g (totR + sumRisk l) ≤
        totR + sumRisk (greedyMultiLoop none none (some g) l nsel totE totR)
  | [], _, _, totR => by
    simpa [greedyMultiLoop, sumRisk] using min_le_right g totR
  | c :: rest, nsel, totE, totR => by
    rw [greedyMultiLoop]
    rw [if_neg (by simp [optZTruthy]), if_neg (by simp [optQTruthy])]
    split
    · next hstop =>
      have hge : g ≤ totR := by simpa using hstop.2
      have h0 : sumRisk ([] : List Cls) = 0 := by simp [sumRisk]
      rw [h0, add_zero]
      exact le_trans (min_le_left g _) hge
    · have ih := greedyMultiLoop_coverage g rest (nsel + 1) (totE + getEffort c)
        (totR + getRisk c)
      rw [sumRisk_cons, sumRisk_cons, ← add_assoc]
      have hmin : min g (totR + getRisk c + sumRisk rest) ≤
          totR + getRisk c + sumRisk (greedyMultiLoop none none (some g) rest
            (nsel + 1) (totE + getEffort c) (totR + getRisk c)) := ih
      linarith [hmin]

/-- The multi-constraint loop selects only input items. -/
theorem greedyMultiLoop_subset (bu : Option ℚ) (mc : Option ℤ)
    (tr : Option ℚ) :
    ∀ (l : List Cls) (nsel : ℕ) (totE totR : ℚ) (x : Cls),
      x ∈ greedyMultiLoop bu mc tr l nsel totE totR → x ∈ l
  | [], _, _, _, x, hx => by simp [greedyMultiLoop] at hx
  | c :: rest, nsel, totE, totR, x, hx => by
    rw [greedyMultiLoop] at hx
    split at hx
    · simp at hx
    · split at hx
      · exact List.mem_cons_of_mem c
          (greedyMultiLoop_subset bu mc tr rest nsel totE totR x hx)
      · split at hx
        · simp at hx
        · rcases List.mem_cons.mp hx with h | h
          · exact h ▸ List.mem_cons_self c rest
          · exact List.mem_cons_of_mem c
              (greedyMultiLoop_subset bu mc tr rest (nsel + 1) _ _ x h)

/-- High-score, high-effort, all-the-risk candidate for the C1
counterexample. -/
def c1a : Cls :=
  { class_name := some "a", risk_score := some 1, effort_hours := some 10,
    effort_aware_score := some 1 }

/-- Low-effort, zero-risk candidate for the C1 counterexample. -/
def c1b : Cls :=
  { class_name := some "b", risk_score := some 0, effort_hours := some 1,
    effort_aware_score := some (1/2) }

/-- Counterexample to C1: on the greedy fallback path with
`budget_hours = 5` and `target_coverage = 1/2`, the only item carrying
risk is skipped for exceeding the budget, the loop then exhausts the list,
and the returned selection covers risk `0 < (1/2) * total` — the coverage
constraint is not satisfied. -/
theorem multi_objective_violates_coverage :
    multi_objective_optimization [c1a, c1b] (some 5) (some (1/2)) none = [c1b] ∧
    sumRisk [c1b] < (1/2) * sumRisk [c1a, c1b] := by
  constructor
  · norm_num [multi_objective_optimization, optimize_multi_constraint,
      greedy_multi_constraint, targetRiskOf, optQTruthy, optZTruthy,
      greedyMultiLoop, sortDescBy, insDescBy, sumRisk, getRisk, getScore,
      getEffort, c1a, c1b]
    simp [insDescBy]
  · norm_num [sumRisk, getRisk, c1a, c1b]

/-- C1 (amended): on the greedy fallback path, a supplied positive budget
and a supplied positive count bound are always respected and only input
items are selected, but the coverage constraint is only guaranteed when it
is the sole supplied constraint (and risks are non-negative); combined
with a budget it can be violated. -/
theorem multi_objective_amended :
    (∀ (classes : List Cls) (b : ℚ) (tc : Option ℚ) (mc : Option ℤ), 0 < b →
      sumEffort (multi_objective_optimization classes (some b) tc mc) ≤ b) ∧
    (∀ (classes : List Cls) (bu tc : Option ℚ) (m : ℤ), 0 < m →
      ((multi_objective_optimization classes bu tc (some m)).length : ℤ) ≤ m) ∧
    (∀ (classes : List Cls) (t : ℚ), 0 < t → t ≤ 1 →
      (∀ c ∈ classes, 0 ≤ getRisk c) →
      t * sumRisk classes ≤
        sumRisk (multi_objective_optimization classes none (some t) none)) ∧
    (∀ (classes : List Cls) (bu tc : Option ℚ) (mc : Option ℤ),
      ∀ x ∈ multi_objective_optimization classes bu tc mc, x ∈ classes) := by
  refine ⟨?_, ?_, ?_, ?_⟩
  · intro classes b tc mc hb
    unfold multi_objective_optimization
    split
    · simp [sumEffort]
      linarith
    · rw [sumEffort_perm (sortDescBy_perm getScore _)]
      unfold optimize_multi_constraint
      split
      · simp [sumEffort]
        linarith
      · unfold greedy_multi_constraint
        have h := greedyMultiLoop_budget b (ne_of_gt hb) mc
          (targetRiskOf classes tc) (sortDescBy getScore classes) 0 0 0 (le_of_lt hb)
        linarith
  · intro classes bu tc m hm
    unfold multi_objective_optimization
    split
    · simp
      omega
    · rw [(sortDescBy_perm getScore _).length_eq]
      unfold optimize_multi_constraint
      split
      · simp
        omega
      · unfold greedy_multi_constraint
        have h := greedyMultiLoop_count m hm bu (targetRiskOf classes tc)
          (sortDescBy getScore classes) 0 0 0 (by simp; omega)
        simpa using h
  · intro classes t ht ht1 hpos
    by_cases hcl : classes = []
    · subst hcl
      simp [multi_objective_optimization, sumRisk]
    · unfold multi_objective_optimization
      rw [if_neg hcl, sumRisk_perm (sortDescBy_perm getScore _)]
      unfold optimize_multi_constraint
      rw [if_neg hcl]
      unfold greedy_multi_constraint
      have htr : targetRiskOf classes (some t) = some (sumRisk classes * t) := by
        unfold targetRiskOf
        rw [if_pos]
        · simp
        · simp [optQTruthy]
          exact ne_of_gt ht
      rw [htr]
      have hR : 0 ≤ sumRisk classes := sumRisk_nonneg classes hpos
      have hcov := greedyMultiLoop_coverage (sumRisk classes * t)
        (sortDescBy getScore classes) 0 0 0
      rw [sumRisk_perm (sortDescBy_perm getScore classes)] at hcov
      have hle : sumRisk classes * t ≤ sumRisk classes := by
        calc sumRisk classes * t ≤ sumRisk classes * 1 := by
              exact mul_le_mul_of_nonneg_left ht1 hR
          _ = sumRisk classes := mul_one _
      have hmin : min (sumRisk classes * t) (0 + sumRisk classes) =
          sumRisk classes * t := by
        rw [zero_add]
        exact min_eq_left hle
      rw [hmin] at hcov
      linarith [hcov]
  · intro classes bu tc mc x hx
    unfold multi_objective_optimization at hx
    split at hx
    · simp at hx
    · have hx2 := (sortDescBy_perm getScore _).mem_iff.mp hx
      unfold optimize_multi_constraint at hx2
      split at hx2
      · simp at hx2
      · unfold greedy_multi_constraint at hx2
        have hx3 := greedyMultiLoop_subset bu mc _ _ 0 0 0 x hx2
        exact (sortDescBy_perm getScore classes).mem_iff.mp hx3

/-- Witness for C1 (amended): a one-item instance under budget `20`, and
the same item selected to meet a sole coverage constraint of `1/2`. -/
theorem multi_objective_amended_witness :
    sumEffort (multi_objective_optimization [c1a] (some 20) none none) ≤ 20 ∧
    (1/2) * sumRisk [c1a] ≤
      sumRisk (multi_objective_optimization [c1a] none (some (1/2)) none) :=
  ⟨multi_objective_amended.1 [c1a] 20 none none (by norm_num),
   multi_objective_amended.2.2.1 [c1a] (1/2) (by norm_num) (by norm_num) (by
     intro c hc
     rw [List.mem_singleton] at hc
     subst hc
     norm_num [getRisk, c1a])⟩

/-- A falsy budget option behaves exactly like an absent budget in the
multi-constraint loop. -/
theorem greedyMultiLoop_budget_falsy (bu : Option ℚ)
    (hb : optQTruthy bu = false) (mc : Option ℤ) (tr : Option ℚ) :
    ∀ (l : List Cls) (nsel : ℕ) (totE totR : ℚ),
      greedyMultiLoop bu mc tr l nsel totE totR =
        greedyMultiLoop none mc tr l nsel totE totR
  | [], _, _, _ => rfl
  | c :: rest, nsel, totE, totR => by
    have hbu : ¬ (optQTruthy bu = true ∧ bu.getD 0 < totE + getEffort c) :=
      fun h => by rw [hb] at h; exact absurd h.1 (by simp)
    have hnone : ¬ (optQTruthy (none : Option ℚ) = true ∧
        (none : Option ℚ).getD 0 < totE + getEffort c) :=
      fun h => by exact absurd h.1 (by simp [optQTruthy])
    rw [greedyMultiLoop, greedyMultiLoop]
    by_cases h1 : optZTruthy mc = true ∧ mc.getD 0 ≤ (nsel : ℤ)
    · rw [if_pos h1, if_pos h1]
    · rw [if_neg h1, if_neg h1, if_neg hbu, if_neg hnone]
      by_cases h3 : optQTruthy tr = true ∧ tr.getD 0 ≤ totR
      · rw [if_pos h3, if_pos h3]
      · rw [if_neg h3, if_neg h3,
          greedyMultiLoop_budget_falsy bu hb mc tr rest (nsel + 1) _ _]

/-- A falsy count option behaves exactly like an absent count bound. -/
theorem greedyMultiLoop_count_falsy (mc : Option ℤ)
    (hm : optZTruthy mc = false) (bu : Option ℚ) (tr : Option ℚ) :
    ∀ (l : List Cls) (nsel : ℕ) (totE totR : ℚ),
      greedyMultiLoop bu mc tr l nsel totE totR =
        greedyMultiLoop bu none tr l nsel totE totR
  | [], _, _, _ => rfl
  | c :: rest, nsel, totE, totR => by
    have hmc : ¬ (optZTruthy mc = true ∧ mc.getD 0 ≤ (nsel : ℤ)) :=
      fun h => by rw [hm] at h; exact absurd h.1 (by simp)
    have hnone : ¬ (optZTruthy (none : Option ℤ) = true ∧
        (none : Option ℤ).getD 0 ≤ (nsel : ℤ)) :=
      fun h => by exact absurd h.1 (by simp [optZTruthy])
    rw [greedyMultiLoop, greedyMultiLoop, if_neg hmc, if_neg hnone]
    by_cases h2 : optQTruthy bu = true ∧ bu.getD 0 < totE + getEffort c
    · rw [if_pos h2, if_pos h2,
        greedyMultiLoop_count_falsy mc hm bu tr rest nsel totE totR]
    · rw [if_neg h2, if_neg h2]
      by_cases h3 : optQTruthy tr = true ∧ tr.getD 0 ≤ totR
      · rw [if_pos h3, if_pos h3]
      · rw [if_neg h3, if_neg h3,
          greedyMultiLoop_count_falsy mc hm bu tr rest (nsel + 1) _ _]

/-- A falsy risk-target option behaves exactly like an absent coverage
constraint. -/
theorem greedyMultiLoop_target_falsy (tr : Option ℚ)
    (ht : optQTruthy tr = false) (bu : Option ℚ) (mc : Option ℤ) :
    ∀ (l : List Cls) (nsel : ℕ) (totE totR : ℚ),
      greedyMultiLoop bu mc tr l nsel totE totR =
        greedyMultiLoop bu mc none l nsel totE totR
  | [], _, _, _ => rfl
  | c :: rest, nsel, totE, totR => by
    have htr : ¬ (optQTruthy tr = true ∧ tr.getD 0 ≤ totR) :=
      fun h => by rw [ht] at h; exact absurd h.1 (by simp)
    have hnone : ¬ (optQTruthy (none : Option ℚ) = true ∧
        (none : Option ℚ).getD 0 ≤ totR) :=
      fun h => by exact absurd h.1 (by simp [optQTruthy])
    rw [greedyMultiLoop, greedyMultiLoop]
    by_cases h1 : optZTruthy mc = true ∧ mc.getD 0 ≤ (nsel : ℤ)
    · rw [if_pos h1, if_pos h1]
    · rw [if_neg h1, if_neg h1]
      by_cases h2 : optQTruthy bu = true ∧ bu.getD 0 < totE + getEffort c
      · rw [if_pos h2, if_pos h2,
          greedyMultiLoop_target_falsy tr ht bu mc rest nsel totE totR]
      · rw [if_neg h2, if_neg h2, if_neg htr, if_neg hnone,
          greedyMultiLoop_target_falsy tr ht bu mc rest (nsel + 1) _ _]

/-- Zero-effort candidate with positive effort hours for the C10 witness
that a zero budget still admits costly items. -/
def c10e : Cls := { effort_hours := some 5, effort_aware_score := some 1 }

/-- C10: in the greedy multi-constraint fallback a zero-valued constraint
is not enforced at all — `budget_hours = 0.0`, `max_classes = 0`, and any
`target_coverage` whose induced risk target is `0` each select exactly
what an absent constraint selects; in particular, under a zero budget the
fallback still selects an item with `effort_hours = 5 > 0`. -/
theorem zero_valued_constraints_ignored :
    (∀ (classes : List Cls) (tc : Option ℚ) (mc : Option ℤ),
      greedy_multi_constraint classes (some 0) tc mc =
        greedy_multi_constraint classes none tc mc) ∧
    (∀ (classes : List Cls) (bu tc : Option ℚ),
      greedy_multi_constraint classes bu tc (some 0) =
        greedy_multi_constraint classes bu tc none) ∧
    (∀ (classes : List Cls) (bu : Option ℚ) (mc : Option ℤ) (t : ℚ),
      sumRisk classes * t = 0 →
      greedy_multi_constraint classes bu (some t) mc =
        greedy_multi_constraint classes bu none mc) ∧
    (greedy_multi_constraint [c10e] (some 0) none none = [c10e] ∧
      0 < getEffort c10e) := by
  refine ⟨?_, ?_, ?_, ?_, ?_⟩
  · intro classes tc mc
    unfold greedy_multi_constraint
    exact greedyMultiLoop_budget_falsy (some 0) (by simp [optQTruthy]) mc
      (targetRiskOf classes tc) _ 0 0 0
  · intro classes bu tc
    unfold greedy_multi_constraint
    exact greedyMultiLoop_count_falsy (some 0) (by simp [optZTruthy]) bu
      (targetRiskOf classes tc) _ 0 0 0
  · intro classes bu mc t h0
    unfold greedy_multi_constraint
    by_cases ht : optQTruthy (some t) = true
    · have htr : targetRiskOf classes (some t) = some (sumRisk classes * t) := by
        unfold targetRiskOf
        rw [if_pos ht]
        simp
      have htr2 : targetRiskOf classes none = none := by
        unfold targetRiskOf
        rw [if_neg (by simp [optQTruthy])]
      rw [htr, htr2]
      exact greedyMultiLoop_target_falsy (some (sumRisk classes * t))
        (by simp [optQTruthy, h0]) bu mc _ 0 0 0
    · have htr : targetRiskOf classes (some t) = none := by
        unfold targetRiskOf
        rw [if_neg ht]
      have htr2 : targetRiskOf classes none = none := by
        unfold targetRiskOf
        rw [if_neg (by simp [optQTruthy])]
      rw [htr, htr2]
  · norm_num [greedy_multi_constraint, targetRiskOf, optQTruthy, optZTruthy,
      greedyMultiLoop, sortDescBy, insDescBy, sumRisk, getRisk, getScore,
      getEffort, c10e]
  · norm_num [getEffort, c10e]

/-- Witness for C10: a coverage option of `1/2` over a zero-risk list
induces target risk `0` and selects exactly what the unconstrained call
selects. -/
theorem zero_valued_constraints_ignored_witness :
    greedy_multi_constraint [c10e] (some 2) (some (1/2)) none =
      greedy_multi_constraint [c10e] (some 2) none none :=
  zero_valued_constraints_ignored.2.2.1 [c10e] (some 2) none (1/2)
    (by norm_num [sumRisk, getRisk, c10e])

/-- One entry of `actual_defects`: `class_name` is read with `d['class_name']`
(required), `has_defect` with `d.get('has_defect', False)`. -/
structure Defect where
  class_name : String
  has_defect : Option Bool := none
deriving Repr, DecidableEq

/-- The defect map built by the dict comprehension
`{d['class_name']: d.get('has_defect', False) for d in actual_defects}`
(metrics_service.py lines 111-114, 169-172): a later duplicate key
overwrites an earlier one; `.get(name, False)` reads it. -/
def defectMapGet (ds : List Defect) (name : String) : Bool :=
  match ds.reverse.find? (fun d => d.class_name == name) with
  | some d => d.has_defect.getD false
  | none => false

/-- `total_defects = sum(1 for d in actual_defects if d.get('has_defect',
False))` (lines 116, 174). -/
def countDefects (ds : List Defect) : ℕ :=
  ds.countP (fun d => d.has_defect.getD false)

/-- Walk of `_calculate_popt20_with_risk_scores` (lines 85-98): accumulate
whole items while they fit in the target effort; at the first item that
does not fit, add the proportional fraction of its risk and stop. -/
def popt20RiskLoop (target : ℚ) : List Cls → ℚ → ℚ → ℚ
  | [], _, cumRisk => cumRisk
  | c :: rest, cumEffort, cumRisk =>
    if cumEffort + getEffort c ≤ target then
      popt20RiskLoop target rest (cumEffort + getEffort c) (cumRisk + getRisk c)
    else
      if 0 < target - cumEffort ∧ 0 < getEffort c then
        cumRisk + getRisk c * ((target - cumEffort) / getEffort c)
      else cumRisk

/-- `MetricsService._calculate_popt20_with_risk_scores` (lines 72-101). -/
def calculate_popt20_with_risk_scores (classes : List Cls)
    (target_effort : ℚ) : Option ℚ :=
  let total_risk := sumRisk classes
  if total_risk = 0 then none
  else if 0 < total_risk then
    some (round4 (popt20RiskLoop target_effort classes 0 0 / total_risk))
  else none

/-- Walk of `_calculate_popt20_with_defects` (lines 123-132): count defects
among the whole items that fit in the target effort; the first item that
does not fit stops the walk with no partial credit. -/
def popt20DefectLoop (dm : String → Bool) (target : ℚ) :
    List Cls → ℚ → ℕ → ℕ
  | [], _, found => found
  | c :: rest, cumEffort, found =>
    if cumEffort + getEffort c ≤ target then
      popt20DefectLoop dm target rest (cumEffort + getEffort c)
        (if dm (getName c) then found + 1 else found)
    else found

/-- `MetricsService._calculate_popt20_with_defects` (lines 103-135). -/
def calculate_popt20_with_defects (classes : List Cls) (ds : List Defect)
    (target_effort : ℚ) : Option ℚ :=
  if countDefects ds = 0 then none
  else if 0 < countDefects ds then
    some (round4 ((popt20DefectLoop (defectMapGet ds) target_effort classes 0 0 : ℚ) /
      (countDefects ds : ℚ)))
  else none

/-- `MetricsService.calculate_popt20` (lines 29-70): empty plan or zero
total effort yield `None`; target effort is 20 percent of the total;
risk-score proxy without `actual_defects`, defect flags with them. -/
def calculate_popt20 (classes : List Cls)
    (actual_defects : Option (List Defect)) : Option ℚ :=
  if classes = [] then none
  else
    let total_effort := sumEffort classes
    if total_effort = 0 then none
    else
      let target_effort := total_effort * (1/5)
      match actual_defects with
      | none => calculate_popt20_with_risk_scores classes target_effort
      | some ds => calculate_popt20_with_defects classes ds target_effort

/-- `MetricsService.calculate_recall_top20` (lines 137-183).  The source
computes `top_k = max(1, int(len(plan) * 0.2))`; in IEEE-754 arithmetic,
`int(n * 0.2)` equals `n / 5` rounded toward zero for every list length a
Python list can have (the float product `n * 0.2` is exact for multiples
of five and otherwise lies strictly between `floor(n/5)` and its
successor), so the embedding uses natural division by five. -/
def calculate_recall_top20 (classes : List Cls)
    (actual_defects : Option (List Defect)) : Option ℚ :=
  if classes = [] then none
  else
    let top_k := max 1 (classes.length / 5)
    let top_classes := classes.take top_k
    match actual_defects with
    | none =>
      let total_risk := sumRisk classes
      if 0 < total_risk then some (round4 (sumRisk top_classes / total_risk))
      else none
    | some ds =>
      if countDefects ds = 0 then none
      else
        let top_defects :=
          top_classes.countP (fun c => defectMapGet ds (getName c))
        if 0 < countDefects ds then
          some (round4 ((top_defects : ℚ) / (countDefects ds : ℚ)))
        else none

/-- The claim's reading of `recall_top20` (spec section 4.5): `top_k =
max(1, round(0.2*len(plan)))` with round-to-nearest, and in the defect
branch the denominator is the summed value over the whole plan. -/
def recallTop20Claim (classes : List Cls)
    (actual_defects : Option (List Defect)) : Option ℚ :=
  if classes = [] then none
  else
    let top_k := max 1 (roundHalfEven ((classes.length : ℚ) * (1/5))).toNat
    let top_classes := classes.take top_k
    match actual_defects with
    | none =>
      let total_risk := sumRisk classes
      if 0 < total_risk then some (round4 (sumRisk top_classes / total_risk))
      else none
    | some ds =>
      let total := classes.countP (fun c => defectMapGet ds (getName c))
      if total = 0 then none
      else some (round4
        ((top_classes.countP (fun c => defectMapGet ds (getName c)) : ℚ) /
          (total : ℚ)))

/-- A plain candidate carrying risk `1`, for the C3 counterexample. -/
def c3r : Cls := { risk_score := some 1 }

/-- An 8-item plan of unit risks, for the C3 counterexample. -/
def c3plan : List Cls := [c3r, c3r, c3r, c3r, c3r, c3r, c3r, c3r]

/-- Counterexample to C3: on an 8-item plan the code truncates
`int(8 * 0.2) = 1` and scores `1/8`, while the claim's
`round(0.2 * 8) = 2` scores `1/4`. -/
theorem recall_top20_uses_floor_not_round :
    calculate_recall_top20 c3plan none = some (1/8) ∧
    recallTop20Claim c3plan none = some (1/4) ∧
    (1/8 : ℚ) ≠ 1/4 := by
  have hne : c3plan ≠ [] := by simp [c3plan]
  refine ⟨?_, ?_, by norm_num⟩
  · rw [calculate_recall_top20, if_neg hne]
    norm_num [c3plan, sumRisk, getRisk, c3r, round4, roundTo, roundHalfEven]
  · rw [recallTop20Claim, if_neg hne]
    norm_num [c3plan, sumRisk, getRisk, c3r, round4, roundTo, roundHalfEven,
      Int.toNat]

/-- C3 (amended): for the code, `top_k = max(1, floor(0.2*len(plan)))`
(truncation, not rounding); the risk branch scores the summed risk of the
top items over the whole plan's risk (`None` unless that total is
positive) and the defect branch counts flagged top items over the number
of flagged entries of `actual_defects` (`None` when that count is zero);
at length 8 the floor gives `1` where rounding would give `2`. -/
theorem recall_top20_amended :
    (∀ plan : List Cls, calculate_recall_top20 plan none =
      (if plan = [] then none
       else if 0 < sumRisk plan then
         some (round4 (sumRisk (plan.take (max 1 (plan.length / 5))) / sumRisk plan))
       else none)) ∧
    (∀ (plan : List Cls) (ds : List Defect),
      calculate_recall_top20 plan (some ds) =
      (if plan = [] then none
       else if countDefects ds = 0 then none
       else some (round4
         (((plan.take (max 1 (plan.length / 5))).countP
             (fun c => defectMapGet ds (getName c)) : ℚ) /
           (countDefects ds : ℚ))))) ∧
    max 1 (8 / 5) = 1 ∧ roundHalfEven ((8 : ℚ) * (1/5)) = 2 := by
  refine ⟨?_, ?_, by norm_num, ?_⟩
  · intro plan
    unfold calculate_recall_top20
    split
    · rfl
    · rfl
  · intro plan ds
    unfold calculate_recall_top20
    split
    · rfl
    · dsimp only
      by_cases h : countDefects ds = 0
      · rw [if_pos h, if_pos h]
      · rw [if_neg h, if_neg h, if_pos (Nat.pos_of_ne_zero h)]
  · norm_num [roundHalfEven]

/-- Number of whole plan items that fit, one after another, inside the
target effort starting from `cum` accumulated effort. -/
def fitCount (target : ℚ) : List Cls → ℚ → ℕ
  | [], _ => 0
  | c :: rest, cum =>
    if cum + getEffort c ≤ target then fitCount target rest (cum + getEffort c) + 1
    else 0

/-- Fractional risk credit of the first item that no longer fits: the
proportional share of its risk, when a positive effort remainder exists. -/
def riskFracFrom (target : ℚ) : List Cls → ℚ → ℚ
  | [], _ => 0
  | c :: rest, cum =>
    if cum + getEffort c ≤ target then riskFracFrom target rest (cum + getEffort c)
    else if 0 < target - cum ∧ 0 < getEffort c then
      getRisk c * ((target - cum) / getEffort c)
    else 0

/-- The risk walk equals: full risk of the fitting prefix plus the
proportional credit of the boundary item. -/
theorem popt20RiskLoop_eq (target : ℚ) :
    ∀ (l : List Cls) (cum cumRisk : ℚ),
      popt20RiskLoop target l cum cumRisk =
        cumRisk + sumRisk (l.take (fitCount target l cum)) +
          riskFracFrom target l cum
  | [], cum, cumRisk => by simp [popt20RiskLoop, fitCount, riskFracFrom, sumRisk]
  | c :: rest, cum, cumRisk => by
    rw [popt20RiskLoop, fitCount, riskFracFrom]
    by_cases h : cum + getEffort c ≤ target
    · rw [if_pos h, if_pos h, if_pos h,
        popt20RiskLoop_eq target rest (cum + getEffort c) (cumRisk + getRisk c),
        List.take_succ_cons, sumRisk_cons]
      ring
    · rw [if_neg h, if_neg h, if_neg h]
      simp only [List.take_zero, sumRisk]
      split
      · simp only [List.map_nil, List.sum_nil]
        ring
      · simp only [List.map_nil, List.sum_nil]
        ring

/-- The defect walk equals: number of flagged items in the fitting
prefix. -/
theorem popt20DefectLoop_eq (dm : String → Bool) (target : ℚ) :
    ∀ (l : List Cls) (cum : ℚ) (found : ℕ),
      popt20DefectLoop dm target l cum found =
        found + (l.take (fitCount target l cum)).countP (fun c => dm (getName c))
  | [], cum, found => by simp [popt20DefectLoop, fitCount]
  | c :: rest, cum, found => by
    rw [popt20DefectLoop, fitCount]
    by_cases h : cum + getEffort c ≤ target
    · rw [if_pos h, if_pos h,
        popt20DefectLoop_eq dm target rest (cum + getEffort c) _,
        List.take_succ_cons, List.countP_cons]
      by_cases hdm : dm (getName c)
      · rw [if_pos hdm]
        simp [hdm]
        omega
      · rw [if_neg hdm]
        simp [hdm]
    · rw [if_neg h, if_neg h]
      simp

/-- The claim's reading of the defect branch of `popt20`: the walk gives
the boundary item the proportional fraction of its defect flag, as the
risk branch does for risk. -/
def popt20DefectClaimLoop (dm : String → Bool) (target : ℚ) :
    List Cls → ℚ → ℚ → ℚ
  | [], _, found => found
  | c :: rest, cum, found =>
    if cum + getEffort c ≤ target then
      popt20DefectClaimLoop dm target rest (cum + getEffort c)
        (found + (if dm (getName c) then 1 else 0))
    else if 0 < target - cum ∧ 0 < getEffort c then
      found + (if dm (getName c) then 1 else 0) * ((target - cum) / getEffort c)
    else found

/-- `popt20` with defect data as the claim describes it: identical to the
code except that the boundary item earns partial credit. -/
def popt20DefectClaim (classes : List Cls) (ds : List Defect) : Option ℚ :=
  if classes = [] then none
  else if sumEffort classes = 0 then none
  else if countDefects ds = 0 then none
  else some (round4 (popt20DefectClaimLoop (defectMapGet ds)
    (sumEffort classes * (1/5)) classes 0 0 / (countDefects ds : ℚ)))

/-- Plan item for the C4 counterexample: all the effort, one defect. -/
def c4a : Cls :=
  { class_name := some "a", risk_score := some 1, effort_hours := some 10 }

/-- Defect record marking `a` defective. -/
def c4d : Defect := { class_name := "a", has_defect := some true }

/-- Counterexample to C4: the single item exceeds the 20 percent effort
window (`10 > 2`), so the defect branch scores `0` — no partial credit —
while the claim's proportional-fraction rule would score `2/10 = 1/5`. -/
theorem popt20_defect_branch_truncates :
    calculate_popt20 [c4a] (some [c4d]) = some 0 ∧
    popt20DefectClaim [c4a] [c4d] = some (1/5) ∧
    some (0 : ℚ) ≠ some (1/5 : ℚ) := by
  have hne : ([c4a] : List Cls) ≠ [] := by simp
  refine ⟨?_, ?_, by norm_num⟩
  · rw [calculate_popt20, if_neg hne]
    norm_num [sumEffort, getEffort, c4a, calculate_popt20_with_defects,
      countDefects, c4d, popt20DefectLoop, defectMapGet, getName, round4,
      roundTo, roundHalfEven]
  · rw [popt20DefectClaim, if_neg hne]
    norm_num [sumEffort, getEffort, c4a, countDefects, c4d,
      popt20DefectClaimLoop, defectMapGet, getName, round4, roundTo,
      roundHalfEven]

/-- C4 (amended): the proportional partial-credit rule holds in the
risk-proxy branch only — `popt20` without defect data scores the full risk
of the fitting prefix plus the boundary item's proportional fraction, over
the total risk — while the defect branch counts only the flagged items
whose whole effort fits inside the 20 percent window (no partial credit),
over the number of flagged entries of `actual_defects`; both branches are
`None` on an empty plan, zero total effort, or a zero denominator. -/
theorem popt20_partial_credit_amended :
    (∀ plan : List Cls, calculate_popt20 plan none =
      (if plan = [] then none
       else if sumEffort plan = 0 then none
       else if sumRisk plan = 0 then none
       else if 0 < sumRisk plan then
         some (round4
           ((sumRisk (plan.take (fitCount (sumEffort plan * (1/5)) plan 0)) +
             riskFracFrom (sumEffort plan * (1/5)) plan 0) / sumRisk plan))
       else none)) ∧
    (∀ (plan : List Cls) (ds : List Defect), calculate_popt20 plan (some ds) =
      (if plan = [] then none
       else if sumEffort plan = 0 then none
       else if countDefects ds = 0 then none
       else some (round4
         (((plan.take (fitCount (sumEffort plan * (1/5)) plan 0)).countP
             (fun c => defectMapGet ds (getName c)) : ℚ) /
           (countDefects ds : ℚ))))) := by
  constructor
  · intro plan
    unfold calculate_popt20
    split
    · rfl
    · dsimp only
      by_cases he : sumEffort plan = 0
      · rw [if_pos he, if_pos he]
      · rw [if_neg he, if_neg he]
        unfold calculate_popt20_with_risk_scores
        rw [popt20RiskLoop_eq]
        simp only [zero_add]
  · intro plan ds
    unfold calculate_popt20
    split
    · rfl
    · dsimp only
      by_cases he : sumEffort plan = 0
      · rw [if_pos he, if_pos he]
      · rw [if_neg he, if_neg he]
        unfold calculate_popt20_with_defects
        rw [popt20DefectLoop_eq]
        by_cases hd : countDefects ds = 0
        · rw [if_pos hd, if_pos hd]
        · rw [if_neg hd, if_neg hd, if_pos (Nat.pos_of_ne_zero hd)]
          simp only [zero_add]
